import Mathlib

/-!
Verification of the receipts-acquisition subsystem of `op-service/sources/receipts.go`:
the method registry and cost-based method picker, the adaptive RPC receipts fetcher
with failure-driven fallback and periodic reset, the caching wrapper, and the
receipt-set validator. Go `uint64` bitsets are embedded as `Nat` (all bitwise
operations used — `&`, `^` — cannot overflow), times and durations as `Nat`
nanosecond counts, and fallible operations as `Except`.
-/

namespace Receipts

/-- `ReceiptsFetchingMethod` is a bitfield with 1 bit for each receipts fetching type
(Go: `type ReceiptsFetchingMethod uint64`). -/
abbrev ReceiptsFetchingMethod := Nat

/-- Go: `EthGetTransactionReceiptBatch ReceiptsFetchingMethod = 1 << iota` (bit 0),
standard per-tx receipt fetching with JSON-RPC batches. -/
def EthGetTransactionReceiptBatch : ReceiptsFetchingMethod := 1

/-- Bit 1: `alchemy_getTransactionReceipts`. -/
def AlchemyGetTransactionReceipts : ReceiptsFetchingMethod := 2

/-- Bit 2: `debug_getRawReceipts`. -/
def DebugGetRawReceipts : ReceiptsFetchingMethod := 4

/-- Bit 3: `parity_getBlockReceipts`. -/
def ParityGetBlockReceipts : ReceiptsFetchingMethod := 8

/-- Bit 4: `eth_getBlockReceipts`. -/
def EthGetBlockReceipts : ReceiptsFetchingMethod := 16

/-- Bit 5: `erigon_getBlockReceiptsByBlockHash`. -/
def ErigonGetBlockReceiptsByBlockHash : ReceiptsFetchingMethod := 32

/-- The six concrete receipt-fetching methods declared in the source. -/
def knownReceiptsFetchingMethods : List ReceiptsFetchingMethod :=
  [EthGetTransactionReceiptBatch, AlchemyGetTransactionReceipts, DebugGetRawReceipts,
   ParityGetBlockReceipts, EthGetBlockReceipts, ErigonGetBlockReceiptsByBlockHash]

/-- `RPCProviderKind` identifies an RPC provider (Go: an enumerated string type;
`ValidRPCProviderKind` restricts configuration to exactly these ten values). -/
inductive RPCProviderKind where
  | alchemy
  | quicknode
  | infura
  | parity
  | nethermind
  | debugGeth
  | erigon
  | basic
  | any
  | standard
deriving DecidableEq, Repr

/-- `AvailableReceiptsFetchingMethods` selects receipt fetching methods based on the
RPC provider kind (Go: the `switch kind` table in receipts.go). -/
def AvailableReceiptsFetchingMethods (kind : RPCProviderKind) : ReceiptsFetchingMethod :=
  match kind with
  | .alchemy => AlchemyGetTransactionReceipts ||| EthGetBlockReceipts ||| EthGetTransactionReceiptBatch
  | .quicknode => DebugGetRawReceipts ||| EthGetBlockReceipts ||| EthGetTransactionReceiptBatch
  | .infura => EthGetTransactionReceiptBatch
  | .parity => ParityGetBlockReceipts ||| EthGetTransactionReceiptBatch
  | .nethermind => ParityGetBlockReceipts ||| EthGetTransactionReceiptBatch
  | .debugGeth => DebugGetRawReceipts ||| EthGetTransactionReceiptBatch
  | .erigon => ErigonGetBlockReceiptsByBlockHash ||| EthGetTransactionReceiptBatch
  | .basic => EthGetTransactionReceiptBatch
  | .any => AlchemyGetTransactionReceipts ||| EthGetBlockReceipts |||
      DebugGetRawReceipts ||| ErigonGetBlockReceiptsByBlockHash |||
      ParityGetBlockReceipts ||| EthGetTransactionReceiptBatch
  | .standard => EthGetBlockReceipts ||| EthGetTransactionReceiptBatch

/-- `PickBestReceiptsFetchingMethod` selects an RPC method that is still available, and
optimal for fetching the given number of tx receipts from the specified provider kind.
Direct transcription of the Go function; `txCount` is the Go `uint64` argument. -/
def PickBestReceiptsFetchingMethod (kind : RPCProviderKind)
    (available : ReceiptsFetchingMethod) (txCount : Nat) : ReceiptsFetchingMethod :=
  if kind = .alchemy then
    if available &&& AlchemyGetTransactionReceipts ≠ 0 ∧ txCount > 250 / 15 then
      AlchemyGetTransactionReceipts
    else if available &&& EthGetBlockReceipts ≠ 0 ∧ txCount > 500 / 15 then
      EthGetBlockReceipts
    else
      EthGetTransactionReceiptBatch
  else if kind = .quicknode then
    if available &&& DebugGetRawReceipts ≠ 0 then
      DebugGetRawReceipts
    else if available &&& EthGetBlockReceipts ≠ 0 ∧ txCount > 59 / 2 then
      EthGetBlockReceipts
    else
      EthGetTransactionReceiptBatch
  else
    -- in order of preference (based on cost): check available methods
    if available &&& AlchemyGetTransactionReceipts ≠ 0 then
      AlchemyGetTransactionReceipts
    else if available &&& DebugGetRawReceipts ≠ 0 then
      DebugGetRawReceipts
    else if available &&& ErigonGetBlockReceiptsByBlockHash ≠ 0 then
      ErigonGetBlockReceiptsByBlockHash
    else if available &&& EthGetBlockReceipts ≠ 0 then
      EthGetBlockReceipts
    else if available &&& ParityGetBlockReceipts ≠ 0 then
      ParityGetBlockReceipts
    else
      -- otherwise fall back on per-tx fetching
      EthGetTransactionReceiptBatch

/-- Every result of the picker is either the per-tx fallback or a method whose bit is
set in `available`, and it is always one of the six known methods. Shared helper. -/
lemma pickBest_sound (kind : RPCProviderKind) (available : ReceiptsFetchingMethod)
    (txCount : Nat) :
    (PickBestReceiptsFetchingMethod kind available txCount = EthGetTransactionReceiptBatch ∨
      available &&& PickBestReceiptsFetchingMethod kind available txCount ≠ 0) ∧
    PickBestReceiptsFetchingMethod kind available txCount ∈ knownReceiptsFetchingMethods := by
  unfold PickBestReceiptsFetchingMethod
  split_ifs with h1 h2 h3 h4 h5 h6 h7 h8 h9 h10 h11 <;>
    simp_all [knownReceiptsFetchingMethods]

/-- Conversely, a method other than the per-tx fallback is returned only when its bit
is set in `available`. Shared helper. -/
lemma pickBest_bit_set (kind : RPCProviderKind) (available : ReceiptsFetchingMethod)
    (txCount : Nat) (m : ReceiptsFetchingMethod)
    (hm : PickBestReceiptsFetchingMethod kind available txCount = m)
    (hne : m ≠ EthGetTransactionReceiptBatch) : available &&& m ≠ 0 := by
  rcases (pickBest_sound kind available txCount).1 with h | h
  · exact absurd (hm ▸ h) hne
  · exact hm ▸ h

/-- Block hashes (Go `common.Hash`), embedded abstractly as naturals. -/
abbrev Hash := Nat

/-- A raw (RLP hex) encoded receipt as returned by `debug_getRawReceipts`
(Go `hexutil.Bytes`), embedded abstractly. -/
abbrev RawReceipt := Nat

/-- `eth.BlockID`: the block whose receipts are requested. -/
structure BlockID where
  hash : Hash
  number : Nat
deriving DecidableEq, Repr

/-- A log entry of a receipt (Go `types.Log`), restricted to the fields the
receipts subsystem reads. -/
structure Log where
  index : Nat
  txIndex : Nat
  blockHash : Hash
  blockNumber : Nat
  txHash : Hash
  removed : Bool
deriving DecidableEq, Repr

/-- A transaction receipt (Go `types.Receipt`), restricted to the fields the
receipts subsystem reads. `blockNumber` is `Option` because the Go field is a
nil-able `*big.Int`. -/
structure Receipt where
  transactionIndex : Nat
  blockHash : Hash
  blockNumber : Option Nat
  cumulativeGasUsed : Nat
  gasUsed : Nat
  logs : List Log
deriving DecidableEq, Repr

/-- An error produced by the RPC transport collaborator. `unusable` records how the
(externally defined) error classifier views it: `true` iff the provider signalled
that the requested method does not exist / is not implemented. `id` distinguishes
distinct error values. -/
structure RPCError where
  unusable : Bool
  id : Nat
deriving DecidableEq, Repr

/-- An error surfaced by a receipts fetch: either an error from the RPC transport,
a decode failure, the raw-receipts count mismatch
(Go: `fmt.Errorf("got %d raw receipts, but expected %d", ...)`),
or the dispatch-switch default (Go: `fmt.Errorf("unknown receipt fetching method: %d", ...)`). -/
inductive FetchError where
  | rpc (e : RPCError)
  | decodeErr (id : Nat)
  | countMismatch (got expected : Nat)
  | unknownMethod (m : ReceiptsFetchingMethod)
deriving DecidableEq, Repr

/-- Modelled from the spec: `unusableMethod` is defined outside the provided sources.
Per the spec's error taxonomy it recognizes exactly the provider's method-unsupported
signals ("provider signals the method does not exist / is not implemented"); errors
synthesized locally by the fetch path (count mismatch, unknown method) and decode
failures are not such signals. -/
def unusableMethod : FetchError → Bool
  | .rpc e => e.unusable
  | _ => false

/-- The RPC transport collaborator (excluded from the core per the spec): one
capability per wire method the fetcher dispatches to. The first field stands for the
whole per-tx batched path of `BasicRPCReceiptsFetcher` (the batched-RPC executor is
an excluded collaborator); the others are single `CallContext` calls keyed by block
hash. -/
structure RPCClient where
  ethGetTransactionReceiptBatch : List Hash → Except RPCError (List Receipt)
  alchemyGetTransactionReceipts : Hash → Except RPCError (List Receipt)
  debugGetRawReceipts : Hash → Except RPCError (List RawReceipt)
  parityGetBlockReceipts : Hash → Except RPCError (List Receipt)
  ethGetBlockReceipts : Hash → Except RPCError (List Receipt)
  erigonGetBlockReceiptsByBlockHash : Hash → Except RPCError (List Receipt)

/-- The adaptive fetcher's state (Go `RPCReceiptsFetcher`, mutable fields only; the
client is passed explicitly). Times and durations are nanosecond counts. -/
structure RPCReceiptsFetcher where
  provKind : RPCProviderKind
  availableReceiptMethods : ReceiptsFetchingMethod
  lastMethodsReset : Nat
  methodResetDuration : Nat
deriving DecidableEq, Repr

/-- `NewRPCReceiptsFetcher`: initial state with the registry default for the kind and
`lastMethodsReset = now` (Go: `time.Now()` at construction). -/
def NewRPCReceiptsFetcher (kind : RPCProviderKind) (methodResetDuration now : Nat) :
    RPCReceiptsFetcher :=
  { provKind := kind
    availableReceiptMethods := AvailableReceiptsFetchingMethods kind
    lastMethodsReset := now
    methodResetDuration := methodResetDuration }

/-- `PickReceiptsMethod`: lazily resets `availableReceiptMethods` to the registry
default when more than `methodResetDuration` has elapsed since the last reset, then
delegates to `PickBestReceiptsFetchingMethod`. Returns the updated state together
with the selected method. -/
def RPCReceiptsFetcher.PickReceiptsMethod (f : RPCReceiptsFetcher) (now txCount : Nat) :
    RPCReceiptsFetcher × ReceiptsFetchingMethod :=
  let f' := if now - f.lastMethodsReset > f.methodResetDuration then
      { f with availableReceiptMethods := AvailableReceiptsFetchingMethods f.provKind,
               lastMethodsReset := now }
    else f
  (f', PickBestReceiptsFetchingMethod f'.provKind f'.availableReceiptMethods txCount)

/-- `OnReceiptsMethodErr`: if the error classifies as method-unsupported, clear the
bit of the method that errored (Go: `f.availableReceiptMethods &^= m`, AND-NOT,
written here as clearing the masked bits with XOR); otherwise leave the state
untouched. -/
def RPCReceiptsFetcher.OnReceiptsMethodErr (f : RPCReceiptsFetcher)
    (m : ReceiptsFetchingMethod) (err : FetchError) : RPCReceiptsFetcher :=
  if unusableMethod err then
    { f with availableReceiptMethods :=
        f.availableReceiptMethods ^^^ (f.availableReceiptMethods &&& m) }
  else f

/-- The dispatch switch of `RPCReceiptsFetcher.FetchReceipts`: issue exactly one RPC
strategy appropriate to the selected method. `decode` stands for
`eth.DecodeRawReceipts` (outside the provided sources), which decodes each raw
receipt into a typed receipt tied to the corresponding transaction hash by position;
the count check guarding it is part of this function, as in the source. -/
def dispatchReceiptsMethod
    (decode : BlockID → List RawReceipt → List Hash → Except Nat (List Receipt))
    (client : RPCClient) (block : BlockID) (txHashes : List Hash)
    (m : ReceiptsFetchingMethod) : Except FetchError (List Receipt) :=
  if m = EthGetTransactionReceiptBatch then
    (client.ethGetTransactionReceiptBatch txHashes).mapError .rpc
  else if m = AlchemyGetTransactionReceipts then
    (client.alchemyGetTransactionReceipts block.hash).mapError .rpc
  else if m = DebugGetRawReceipts then
    match client.debugGetRawReceipts block.hash with
    | .error e => .error (.rpc e)
    | .ok rawReceipts =>
      if rawReceipts.length = txHashes.length then
        (decode block rawReceipts txHashes).mapError .decodeErr
      else
        .error (.countMismatch rawReceipts.length txHashes.length)
  else if m = ParityGetBlockReceipts then
    (client.parityGetBlockReceipts block.hash).mapError .rpc
  else if m = EthGetBlockReceipts then
    (client.ethGetBlockReceipts block.hash).mapError .rpc
  else if m = ErigonGetBlockReceiptsByBlockHash then
    (client.erigonGetBlockReceiptsByBlockHash block.hash).mapError .rpc
  else
    .error (.unknownMethod m)

/-- `RPCReceiptsFetcher.FetchReceipts`: select a method, dispatch exactly one RPC
strategy, and on error feed it to `OnReceiptsMethodErr` and surface it with no
receipts. Returns the updated fetcher state together with the result. -/
def RPCReceiptsFetcher.FetchReceipts
    (decode : BlockID → List RawReceipt → List Hash → Except Nat (List Receipt))
    (client : RPCClient) (f : RPCReceiptsFetcher) (now : Nat) (block : BlockID)
    (txHashes : List Hash) : RPCReceiptsFetcher × Except FetchError (List Receipt) :=
  match f.PickReceiptsMethod now txHashes.length with
  | (f1, m) =>
    match dispatchReceiptsMethod decode client block txHashes m with
    | .error e => (f1.OnReceiptsMethodErr m e, .error e)
    | .ok result => (f1, .ok result)

/-- `CachingReceiptsProvider`: decorates a receipts source with a hash-keyed cache.
The LRU collaborator is excluded per the spec; its `get`/`put` capability is embedded
as an `Option`-valued map. -/
structure CachingReceiptsProvider where
  inner : BlockID → List Hash → Except FetchError (List Receipt)
  cache : Hash → Option (List Receipt)

/-- `CachingReceiptsProvider.FetchReceipts`: on cache hit by `block.hash` return the
cached list; on miss delegate to the inner fetcher, caching the result under
`block.hash` exactly when it succeeds. Returns the updated provider together with
the result. -/
def CachingReceiptsProvider.FetchReceipts (p : CachingReceiptsProvider)
    (block : BlockID) (txHashes : List Hash) :
    CachingReceiptsProvider × Except FetchError (List Receipt) :=
  match p.cache block.hash with
  | some r => (p, .ok r)
  | none =>
    match p.inner block txHashes with
    | .error err => (p, .error err)
    | .ok r =>
      ({ p with cache := fun h => if h = block.hash then some r else p.cache h }, .ok r)

/-- `CachedReceipts` provides direct access to the underlying receipts cache. -/
def CachingReceiptsProvider.CachedReceipts (p : CachingReceiptsProvider)
    (blockHash : Hash) : Option (List Receipt) :=
  p.cache blockHash

/-- C1: For every provider kind, every available-method bitset, and every transaction
count, `PickBestReceiptsFetchingMethod` returns one of the six known methods whose
bit is set in the available set, or else the per-tx method
`EthGetTransactionReceiptBatch` (the final fallback regardless of the available set);
and it is a pure deterministic function of the `(kind, available, txCount)` triple
(in this embedding it is a function, so determinism is the trivially provable last
conjunct). -/
theorem pickBestReceiptsFetchingMethod_available_or_fallback
    (kind : RPCProviderKind) (available : ReceiptsFetchingMethod) (txCount : Nat) :
    (PickBestReceiptsFetchingMethod kind available txCount = EthGetTransactionReceiptBatch ∨
      available &&& PickBestReceiptsFetchingMethod kind available txCount ≠ 0) ∧
    PickBestReceiptsFetchingMethod kind available txCount ∈ knownReceiptsFetchingMethods ∧
    PickBestReceiptsFetchingMethod kind available txCount =
      PickBestReceiptsFetchingMethod kind available txCount :=
  ⟨(pickBest_sound kind available txCount).1, (pickBest_sound kind available txCount).2, rfl⟩

/-- C2: For kind = alchemy with the bulk method's bit set in `available`, at
`txCount = breakEven - 1` the per-tx method is chosen and at
`txCount = breakEven + 1` the bulk method is chosen, where `breakEven = 250 / 15`
(bulk-call cost over per-tx cost in Alchemy compute units). -/
theorem pickBest_alchemy_break_even (available : ReceiptsFetchingMethod)
    (h : available &&& AlchemyGetTransactionReceipts ≠ 0) :
    PickBestReceiptsFetchingMethod .alchemy available (250 / 15 - 1) =
      EthGetTransactionReceiptBatch ∧
    PickBestReceiptsFetchingMethod .alchemy available (250 / 15 + 1) =
      AlchemyGetTransactionReceipts := by
  refine ⟨?_, ?_⟩ <;> unfold PickBestReceiptsFetchingMethod <;> simp [h]

/-- Witness for C2 at `available = AlchemyGetTransactionReceipts`. -/
theorem pickBest_alchemy_break_even_witness :
    ((2 : Nat) &&& AlchemyGetTransactionReceipts ≠ 0) ∧
    (PickBestReceiptsFetchingMethod .alchemy 2 (250 / 15 - 1) =
      EthGetTransactionReceiptBatch ∧
    PickBestReceiptsFetchingMethod .alchemy 2 (250 / 15 + 1) =
      AlchemyGetTransactionReceipts) :=
  ⟨by decide, pickBest_alchemy_break_even 2 (by decide)⟩

/-- Clearing the `m`-masked bits of `a` (the embedding of Go's `a &^= m`) yields a
value with no bit of `m` set. Shared helper. -/
lemma xor_land_land (a m : Nat) : (a ^^^ (a &&& m)) &&& m = 0 := by
  apply Nat.eq_of_testBit_eq
  intro i
  simp only [Nat.testBit_land, Nat.testBit_xor, Nat.zero_testBit]
  cases a.testBit i <;> cases m.testBit i <;> rfl

/-- The state reached from the registry default after an unusable-method error.
Shared helper. -/
lemma onReceiptsMethodErr_unusable (kind : RPCProviderKind) (d t0 : Nat)
    (M : ReceiptsFetchingMethod) (err : FetchError) (herr : unusableMethod err = true) :
    (NewRPCReceiptsFetcher kind d t0).OnReceiptsMethodErr M err =
      { provKind := kind
        availableReceiptMethods :=
          AvailableReceiptsFetchingMethods kind ^^^
            (AvailableReceiptsFetchingMethods kind &&& M)
        lastMethodsReset := t0
        methodResetDuration := d } := by
  simp [NewRPCReceiptsFetcher, RPCReceiptsFetcher.OnReceiptsMethodErr, herr]

/-- C3 (amended): Starting from the full registry default for a kind, reporting a
"method unusable" error for any method M other than the always-available per-tx
fallback `EthGetTransactionReceiptBatch` clears M's bit from
`availableReceiptMethods`; a fetch call made before `methodResetDuration` has
elapsed leaves the state unchanged (hence every such call) and never selects M; and
a call made after `methodResetDuration` has elapsed restores the available set to
the registry default for the kind. -/
theorem degrade_and_recover (kind : RPCProviderKind) (M : ReceiptsFetchingMethod)
    (hMne : M ≠ EthGetTransactionReceiptBatch) (err : FetchError)
    (herr : unusableMethod err = true) (d t0 t1 t2 txc1 txc2 : Nat)
    (h1 : ¬ t1 - t0 > d) (h2 : t2 - t0 > d) :
    ((NewRPCReceiptsFetcher kind d t0).OnReceiptsMethodErr M err).availableReceiptMethods
        &&& M = 0 ∧
    (((NewRPCReceiptsFetcher kind d t0).OnReceiptsMethodErr M err).PickReceiptsMethod
        t1 txc1).1 = (NewRPCReceiptsFetcher kind d t0).OnReceiptsMethodErr M err ∧
    (((NewRPCReceiptsFetcher kind d t0).OnReceiptsMethodErr M err).PickReceiptsMethod
        t1 txc1).2 ≠ M ∧
    (((NewRPCReceiptsFetcher kind d t0).OnReceiptsMethodErr M err).PickReceiptsMethod
        t2 txc2).1.availableReceiptMethods = AvailableReceiptsFetchingMethods kind := by
  rw [onReceiptsMethodErr_unusable kind d t0 M err herr]
  refine ⟨xor_land_land _ _, ?_, ?_, ?_⟩
  · simp [RPCReceiptsFetcher.PickReceiptsMethod, h1]
  · simp only [RPCReceiptsFetcher.PickReceiptsMethod, h1, if_neg]
    intro heq
    exact pickBest_bit_set _ _ _ M heq hMne (xor_land_land _ _)
  · simp [RPCReceiptsFetcher.PickReceiptsMethod, h2]

/-- Witness for C3 (amended): kind = alchemy, M = `AlchemyGetTransactionReceipts`,
reset interval 10, error at t = 0, degraded call at t = 5, recovering call at
t = 20. -/
theorem degrade_and_recover_witness :
    (AlchemyGetTransactionReceipts ≠ EthGetTransactionReceiptBatch) ∧
    (unusableMethod (.rpc ⟨true, 0⟩) = true) ∧
    (¬ 5 - 0 > 10) ∧ (20 - 0 > 10) ∧
    (((NewRPCReceiptsFetcher .alchemy 10 0).OnReceiptsMethodErr
        AlchemyGetTransactionReceipts (.rpc ⟨true, 0⟩)).availableReceiptMethods
        &&& AlchemyGetTransactionReceipts = 0 ∧
    (((NewRPCReceiptsFetcher .alchemy 10 0).OnReceiptsMethodErr
        AlchemyGetTransactionReceipts (.rpc ⟨true, 0⟩)).PickReceiptsMethod 5 100).1 =
      (NewRPCReceiptsFetcher .alchemy 10 0).OnReceiptsMethodErr
        AlchemyGetTransactionReceipts (.rpc ⟨true, 0⟩) ∧
    (((NewRPCReceiptsFetcher .alchemy 10 0).OnReceiptsMethodErr
        AlchemyGetTransactionReceipts (.rpc ⟨true, 0⟩)).PickReceiptsMethod 5 100).2 ≠
      AlchemyGetTransactionReceipts ∧
    (((NewRPCReceiptsFetcher .alchemy 10 0).OnReceiptsMethodErr
        AlchemyGetTransactionReceipts (.rpc ⟨true, 0⟩)).PickReceiptsMethod 20 100).1.availableReceiptMethods =
      AvailableReceiptsFetchingMethods .alchemy) :=
  ⟨by decide, by decide, by decide, by decide,
    degrade_and_recover .alchemy AlchemyGetTransactionReceipts (by decide) (.rpc ⟨true, 0⟩)
      (by decide) 10 0 5 20 100 100 (by decide) (by decide)⟩

/-- Counterexample to C3 as stated: for kind = basic and M = the per-tx method
`EthGetTransactionReceiptBatch`, the unusable-method error does clear M's bit from
the registry default, yet a fetch call made before `methodResetDuration` has elapsed
still selects M (the always-available fallback), refuting "every subsequent fetch
call made before resetInterval has elapsed never selects M" for this M. -/
theorem degrade_and_recover_counterexample :
    ((NewRPCReceiptsFetcher .basic 10 0).OnReceiptsMethodErr
        EthGetTransactionReceiptBatch (.rpc ⟨true, 0⟩)).availableReceiptMethods
        &&& EthGetTransactionReceiptBatch = 0 ∧
    (((NewRPCReceiptsFetcher .basic 10 0).OnReceiptsMethodErr
        EthGetTransactionReceiptBatch (.rpc ⟨true, 0⟩)).PickReceiptsMethod 5 3).2 =
      EthGetTransactionReceiptBatch := by
  constructor <;> decide

/-- C4: When a fetch attempt with selected method `m` fails: the error is surfaced to
the caller with no receipts and the whole result is exactly the one produced by the
single dispatched method `m` (no alternative method is retried within the call); if
the error classifies as method-unsupported, `m`'s bits are cleared from
`availableReceiptMethods`; if it is transient, the state is left completely
unchanged. -/
theorem fetchReceipts_error_handling
    (decode : BlockID → List RawReceipt → List Hash → Except Nat (List Receipt))
    (client : RPCClient) (f : RPCReceiptsFetcher) (now : Nat) (block : BlockID)
    (txHashes : List Hash) (f1 : RPCReceiptsFetcher) (m : ReceiptsFetchingMethod)
    (e : FetchError)
    (hpick : f.PickReceiptsMethod now txHashes.length = (f1, m))
    (hdisp : dispatchReceiptsMethod decode client block txHashes m = .error e) :
    RPCReceiptsFetcher.FetchReceipts decode client f now block txHashes =
      (f1.OnReceiptsMethodErr m e, .error e) ∧
    (unusableMethod e = true →
      (f1.OnReceiptsMethodErr m e).availableReceiptMethods =
        f1.availableReceiptMethods ^^^ (f1.availableReceiptMethods &&& m) ∧
      (f1.OnReceiptsMethodErr m e).availableReceiptMethods &&& m = 0) ∧
    (unusableMethod e = false → f1.OnReceiptsMethodErr m e = f1) := by
  refine ⟨?_, ?_, ?_⟩
  · simp [RPCReceiptsFetcher.FetchReceipts, hpick, hdisp]
  · intro hu
    simp [RPCReceiptsFetcher.OnReceiptsMethodErr, hu, xor_land_land]
  · intro hu
    simp [RPCReceiptsFetcher.OnReceiptsMethodErr, hu]

/-- A concrete RPC client for witnesses: the per-tx batched path fails with an
unusable-method error, everything else succeeds with an empty result. -/
def clientW : RPCClient :=
  { ethGetTransactionReceiptBatch := fun _ => .error ⟨true, 7⟩
    alchemyGetTransactionReceipts := fun _ => .ok []
    debugGetRawReceipts := fun _ => .ok []
    parityGetBlockReceipts := fun _ => .ok []
    ethGetBlockReceipts := fun _ => .ok []
    erigonGetBlockReceiptsByBlockHash := fun _ => .ok [] }

/-- A concrete raw-receipt decoder for witnesses. -/
def decodeW : BlockID → List RawReceipt → List Hash → Except Nat (List Receipt) :=
  fun _ _ _ => .ok []

/-- Witness for C4: a basic-kind fetcher at t = 5 (no reset due) selects the per-tx
method, whose dispatch fails with an unusable error. -/
theorem fetchReceipts_error_handling_witness :
    ((NewRPCReceiptsFetcher .basic 10 0).PickReceiptsMethod 5 ([] : List Hash).length =
      (NewRPCReceiptsFetcher .basic 10 0, EthGetTransactionReceiptBatch)) ∧
    (dispatchReceiptsMethod decodeW clientW ⟨1, 1⟩ [] EthGetTransactionReceiptBatch =
      .error (.rpc ⟨true, 7⟩)) ∧
    (RPCReceiptsFetcher.FetchReceipts decodeW clientW (NewRPCReceiptsFetcher .basic 10 0)
        5 ⟨1, 1⟩ [] =
      ((NewRPCReceiptsFetcher .basic 10 0).OnReceiptsMethodErr
        EthGetTransactionReceiptBatch (.rpc ⟨true, 7⟩), .error (.rpc ⟨true, 7⟩)) ∧
    (unusableMethod (.rpc ⟨true, 7⟩) = true →
      ((NewRPCReceiptsFetcher .basic 10 0).OnReceiptsMethodErr
          EthGetTransactionReceiptBatch (.rpc ⟨true, 7⟩)).availableReceiptMethods =
        (NewRPCReceiptsFetcher .basic 10 0).availableReceiptMethods ^^^
          ((NewRPCReceiptsFetcher .basic 10 0).availableReceiptMethods &&&
            EthGetTransactionReceiptBatch) ∧
      ((NewRPCReceiptsFetcher .basic 10 0).OnReceiptsMethodErr
          EthGetTransactionReceiptBatch (.rpc ⟨true, 7⟩)).availableReceiptMethods &&&
        EthGetTransactionReceiptBatch = 0) ∧
    (unusableMethod (.rpc ⟨true, 7⟩) = false →
      (NewRPCReceiptsFetcher .basic 10 0).OnReceiptsMethodErr
          EthGetTransactionReceiptBatch (.rpc ⟨true, 7⟩) =
        NewRPCReceiptsFetcher .basic 10 0)) :=
  ⟨by decide, rfl,
    fetchReceipts_error_handling decodeW clientW (NewRPCReceiptsFetcher .basic 10 0)
      5 ⟨1, 1⟩ [] (NewRPCReceiptsFetcher .basic 10 0) EthGetTransactionReceiptBatch
      (.rpc ⟨true, 7⟩) (by decide) rfl⟩

/-- C5: The caching wrapper returns the cached receipt list on a hit by `block.hash`
without consulting the inner fetcher (`inner` is arbitrary and unconstrained in the
hit case); on a miss it delegates to the inner fetcher, storing the result under
`block.hash` exactly when the inner fetch succeeds; when the inner fetch errors, the
cache is left unchanged and the error is returned with no receipts. -/
theorem cachingFetchReceipts_correct
    (inner : BlockID → List Hash → Except FetchError (List Receipt))
    (cache : Hash → Option (List Receipt)) (block : BlockID) (txHashes : List Hash) :
    (∀ r, cache block.hash = some r →
      CachingReceiptsProvider.FetchReceipts ⟨inner, cache⟩ block txHashes =
        (⟨inner, cache⟩, .ok r)) ∧
    (cache block.hash = none → ∀ r, inner block txHashes = .ok r →
      CachingReceiptsProvider.FetchReceipts ⟨inner, cache⟩ block txHashes =
        (⟨inner, fun h => if h = block.hash then some r else cache h⟩, .ok r)) ∧
    (cache block.hash = none → ∀ e, inner block txHashes = .error e →
      CachingReceiptsProvider.FetchReceipts ⟨inner, cache⟩ block txHashes =
        (⟨inner, cache⟩, .error e)) := by
  refine ⟨?_, ?_, ?_⟩ <;> intros <;>
    simp_all [CachingReceiptsProvider.FetchReceipts]

/-- A concrete cache for witnesses: block hash 5 is cached with the empty list. -/
def cacheW : Hash → Option (List Receipt) :=
  fun h => if h = 5 then some [] else none

/-- A concrete inner fetcher for witnesses: succeeds (empty list) on block hash 6,
fails otherwise. -/
def innerW : BlockID → List Hash → Except FetchError (List Receipt) :=
  fun b _ => if b.hash = 6 then .ok [] else .error (.rpc ⟨false, 1⟩)

/-- Witness for C5: a hit (hash 5), a miss that succeeds (hash 6), and a miss that
fails (hash 7). -/
theorem cachingFetchReceipts_correct_witness :
    (cacheW (5 : Nat) = some [] ∧
      CachingReceiptsProvider.FetchReceipts ⟨innerW, cacheW⟩ ⟨5, 0⟩ [] =
        (⟨innerW, cacheW⟩, .ok [])) ∧
    (cacheW (6 : Nat) = none ∧ innerW ⟨6, 0⟩ [] = .ok [] ∧
      CachingReceiptsProvider.FetchReceipts ⟨innerW, cacheW⟩ ⟨6, 0⟩ [] =
        (⟨innerW, fun h => if h = (6 : Nat) then some [] else cacheW h⟩, .ok [])) ∧
    (cacheW (7 : Nat) = none ∧ innerW ⟨7, 0⟩ [] = .error (.rpc ⟨false, 1⟩) ∧
      CachingReceiptsProvider.FetchReceipts ⟨innerW, cacheW⟩ ⟨7, 0⟩ [] =
        (⟨innerW, cacheW⟩, .error (.rpc ⟨false, 1⟩))) :=
  ⟨⟨by decide, (cachingFetchReceipts_correct innerW cacheW ⟨5, 0⟩ []).1 [] (by decide)⟩,
   ⟨by decide, rfl,
    (cachingFetchReceipts_correct innerW cacheW ⟨6, 0⟩ []).2.1 (by decide) [] rfl⟩,
   ⟨by decide, rfl,
    (cachingFetchReceipts_correct innerW cacheW ⟨7, 0⟩ []).2.2 (by decide)
      (.rpc ⟨false, 1⟩) rfl⟩⟩

/-- C9: On a cache hit, the caching wrapper completely ignores the `txHashes`
argument: after a first call for block B populates the cache, a second call with the
same block hash but an arbitrary (possibly empty or wrong-length) transaction-hash
list returns the receipt list cached by the first call, with no error and no
consistency check against the supplied list. -/
theorem cachingFetchReceipts_hit_ignores_txHashes
    (inner : BlockID → List Hash → Except FetchError (List Receipt))
    (cache : Hash → Option (List Receipt)) (block block2 : BlockID)
    (txs1 txs2 : List Hash) (r : List Receipt)
    (hmiss : cache block.hash = none)
    (hinner : inner block txs1 = .ok r)
    (hhash : block2.hash = block.hash) :
    CachingReceiptsProvider.FetchReceipts
        ((CachingReceiptsProvider.FetchReceipts ⟨inner, cache⟩ block txs1).1)
        block2 txs2 =
      ((CachingReceiptsProvider.FetchReceipts ⟨inner, cache⟩ block txs1).1, .ok r) := by
  simp [CachingReceiptsProvider.FetchReceipts, hmiss, hinner, hhash]

/-- Witness for C9: the first call fetches block hash 6 with a two-hash list, the
second call uses the same block hash with an empty (wrong-length) list and still
gets the cached result. -/
theorem cachingFetchReceipts_hit_ignores_txHashes_witness :
    (cacheW (6 : Nat) = none) ∧ (innerW ⟨6, 0⟩ [1, 2] = .ok []) ∧
    ((⟨6, 9⟩ : BlockID).hash = (⟨6, 0⟩ : BlockID).hash) ∧
    (CachingReceiptsProvider.FetchReceipts
        ((CachingReceiptsProvider.FetchReceipts ⟨innerW, cacheW⟩ ⟨6, 0⟩ [1, 2]).1)
        ⟨6, 9⟩ [] =
      ((CachingReceiptsProvider.FetchReceipts ⟨innerW, cacheW⟩ ⟨6, 0⟩ [1, 2]).1,
        .ok [])) :=
  ⟨by decide, rfl, by decide,
    cachingFetchReceipts_hit_ignores_txHashes innerW cacheW ⟨6, 0⟩ ⟨6, 9⟩ [1, 2] []
      [] (by decide) rfl (by decide)⟩

/-- `2 ^ 64`, the modulus of Go `uint64` arithmetic. -/
def U64 : Nat := 2 ^ 64

/-- Go `uint64` subtraction (wrapping): `a - b` computed modulo `2 ^ 64`. -/
def sub64 (a b : Nat) : Nat := (a % U64 + (U64 - b % U64)) % U64

/-- `types.EmptyRootHash`, the canonical empty-trie root
(keccak256 of the RLP of the empty string), as a natural number. -/
def EmptyRootHash : Hash :=
  0x56e81f171bcc55a6ff8345e692c0f86e5b48e01b996cadc001622fb5e363b421

/-- The failure cases of `validateReceipts`, one constructor per `fmt.Errorf` in the
source, carrying the same format arguments in the same order. -/
inductive ValidationError where
  | countMismatch (got expected : Nat)
  | nonEmptyRootForEmpty (root : Hash)
  | nilReceipt (i : Nat)
  | badTxIndex (i txIndex : Nat)
  | nilBlockNumber (i expected : Nat)
  | badBlockNumber (i got expected : Nat)
  | badBlockHash (i : Nat) (got expected : Hash)
  | badGasUsed (i got expected : Nat)
  | badLogIndex (logIndex j i got : Nat)
  | badLogTxIndex (logIndex got : Nat)
  | badLogBlockHash (logIndex : Nat) (blockHash got : Hash)
  | badLogBlockNumber (logIndex blockNumber got : Nat)
  | badLogTxHash (logIndex : Nat) (txHash got : Hash)
  | removedLog (logIndex : Nat)
  | rootMismatch (expected computed : Hash)
deriving DecidableEq, Repr

/-- The inner `for j, log := range r.Logs` loop of `validateReceipts`: checks the
logs of receipt `i` (whose requested transaction hash is `txHash`), with `j` the
position within the receipt and `logIndex` the running global log index; returns the
advanced global log index. -/
def checkLogs (block : BlockID) (txHash : Hash) (i : Nat) :
    List Log → Nat → Nat → Except ValidationError Nat
  | [], _, logIndex => .ok logIndex
  | l :: rest, j, logIndex =>
    if l.index ≠ logIndex then .error (.badLogIndex logIndex j i l.index)
    else if l.txIndex ≠ i then .error (.badLogTxIndex l.index l.txIndex)
    else if l.blockHash ≠ block.hash then
      .error (.badLogBlockHash l.index block.hash l.blockHash)
    else if l.blockNumber ≠ block.number then
      .error (.badLogBlockNumber l.index block.number l.blockNumber)
    else if l.txHash ≠ txHash then .error (.badLogTxHash l.index txHash l.txHash)
    else if l.removed then .error (.removedLog l.index)
    else checkLogs block txHash i rest (j + 1) (logIndex + 1)

/-- The body of the `for i, r := range receipts` loop of `validateReceipts` for a
single receipt: the nil check, positional/block checks, the `uint64` gas-difference
check, and the log checks; on success returns the advanced global log index and the
new `cumulativeGas` accumulator (the receipt's `cumulativeGasUsed`). -/
def checkReceipt (block : BlockID) (txHash : Hash) (i logIndex cumulativeGas : Nat) :
    Option Receipt → Except ValidationError (Nat × Nat)
  | none => .error (.nilReceipt i)
  | some r =>
    if r.transactionIndex ≠ i then .error (.badTxIndex i r.transactionIndex)
    else if r.blockNumber = none then .error (.nilBlockNumber i block.number)
    else if r.blockNumber.getD 0 ≠ block.number then
      .error (.badBlockNumber i (r.blockNumber.getD 0) block.number)
    else if r.blockHash ≠ block.hash then
      .error (.badBlockHash i r.blockHash block.hash)
    else if r.gasUsed ≠ sub64 r.cumulativeGasUsed cumulativeGas then
      .error (.badGasUsed i r.gasUsed (sub64 r.cumulativeGasUsed cumulativeGas))
    else match checkLogs block txHash i r.logs 0 logIndex with
      | .error e => .error e
      | .ok logIndex' => .ok (logIndex', r.cumulativeGasUsed)

/-- The `for i, r := range receipts` loop of `validateReceipts`, carrying the running
index `i`, global log index and cumulative-gas accumulators. `txHashes.getD i 0`
embeds the in-range access `txHashes[i]` (the length guard has already ensured
`i < txHashes.length` whenever the loop is reached from `validateReceipts`). -/
def checkReceiptsLoop (block : BlockID) (txHashes : List Hash) :
    List (Option Receipt) → Nat → Nat → Nat → Except ValidationError (Nat × Nat)
  | [], _, logIndex, cumulativeGas => .ok (logIndex, cumulativeGas)
  | r :: rest, i, logIndex, cumulativeGas =>
    match checkReceipt block (txHashes.getD i 0) i logIndex cumulativeGas r with
    | .error e => .error e
    | .ok (logIndex', cumulativeGas') =>
      checkReceiptsLoop block txHashes rest (i + 1) logIndex' cumulativeGas'

/-- `validateReceipts`: validates that the receipt contents are valid.
`deriveSha` is modelled from the spec: `types.DeriveSha` over a `StackTrie`
(the Merkle–Patricia trie hashing collaborator, outside the provided sources)
recomputes the receipts trie root over the ordered receipt list. -/
def validateReceipts (deriveSha : List (Option Receipt) → Hash) (block : BlockID)
    (receiptHash : Hash) (txHashes : List Hash) (receipts : List (Option Receipt)) :
    Except ValidationError Unit :=
  if receipts.length ≠ txHashes.length then
    .error (.countMismatch receipts.length txHashes.length)
  else if txHashes.length = 0 ∧ receiptHash ≠ EmptyRootHash then
    .error (.nonEmptyRootForEmpty receiptHash)
  else match checkReceiptsLoop block txHashes receipts 0 0 0 with
    | .error e => .error e
    | .ok _ =>
      let computed := deriveSha receipts
      if receiptHash ≠ computed then .error (.rootMismatch receiptHash computed)
      else .ok ()

/-- The cumulative-gas accumulator value seen by the loop just before receipt `j`,
starting from accumulator value `cg`: the `cumulativeGasUsed` of receipt `j - 1`
(nil receipts never reach this point). -/
def cumAt (cg : Nat) : List (Option Receipt) → Nat → Nat
  | _, 0 => cg
  | [], _ + 1 => cg
  | r :: rest, j + 1 =>
    cumAt (match r with | some x => x.cumulativeGasUsed | none => 0) rest j

/-- Splitting the log loop at an append. Shared helper. -/
lemma checkLogs_append (block : BlockID) (txh : Hash) (i : Nat) (xs ys : List Log) :
    ∀ (j li : Nat),
    checkLogs block txh i (xs ++ ys) j li =
      match checkLogs block txh i xs j li with
      | .error e => .error e
      | .ok li' => checkLogs block txh i ys (j + xs.length) li' := by
  induction xs with
  | nil => intro j li; rfl
  | cons l rest ih =>
    intro j li
    simp only [List.cons_append, checkLogs, List.length_cons]
    split_ifs <;> try rfl
    have harith : j + (rest.length + 1) = j + 1 + rest.length := by omega
    rw [harith]
    exact ih (j + 1) (li + 1)

/-- A successful log check means every log carried the requested transaction hash.
Shared helper. -/
lemma checkLogs_ok_txHash (block : BlockID) (txh : Hash) (i : Nat) :
    ∀ (logs : List Log) (j li li' : Nat),
    checkLogs block txh i logs j li = .ok li' → ∀ l ∈ logs, l.txHash = txh := by
  intro logs
  induction logs with
  | nil => intro j li li' _ l hl; simp at hl
  | cons l rest ih =>
    intro j li li' h l' hl'
    simp only [checkLogs] at h
    split_ifs at h with h1 h2 h3 h4 h5 h6
    rcases List.mem_cons.mp hl' with rfl | hm
    · exact not_not.mp h5
    · exact ih (j + 1) (li + 1) li' h l' hm

/-- A log failing only the transaction-hash comparison reports that log's index and
both hashes. Shared helper. -/
lemma checkLogs_txHash_error (block : BlockID) (txh : Hash) (i : Nat) (l : Log)
    (rest : List Log) (j li : Nat)
    (h1 : l.index = li) (h2 : l.txIndex = i) (h3 : l.blockHash = block.hash)
    (h4 : l.blockNumber = block.number) (h5 : l.txHash ≠ txh) :
    checkLogs block txh i (l :: rest) j li =
      .error (.badLogTxHash l.index txh l.txHash) := by
  simp [checkLogs, h1, h2, h3, h4, h5]

/-- Inversion of a successful per-receipt check. Shared helper. -/
lemma checkReceipt_ok_elim (block : BlockID) (txh : Hash) (i li cg : Nat)
    (or : Option Receipt) (li' cg' : Nat)
    (h : checkReceipt block txh i li cg or = .ok (li', cg')) :
    ∃ r, or = some r ∧ r.transactionIndex = i ∧ r.blockNumber = some block.number ∧
      r.blockHash = block.hash ∧ r.gasUsed = sub64 r.cumulativeGasUsed cg ∧
      checkLogs block txh i r.logs 0 li = .ok li' ∧ cg' = r.cumulativeGasUsed := by
  cases or with
  | none => simp [checkReceipt] at h
  | some r =>
    refine ⟨r, rfl, ?_⟩
    simp only [checkReceipt] at h
    split_ifs at h with h1 h2 h3 h4 h5
    rcases hcl : checkLogs block txh i r.logs 0 li with e | li2 <;> rw [hcl] at h
    · exact Except.noConfusion h
    simp only [Except.ok.injEq, Prod.mk.injEq] at h
    have hbn : r.blockNumber = some block.number := by
      rcases hx : r.blockNumber with _ | bn
      · exact absurd hx h2
      · rw [hx] at h3
        simp only [Option.getD_some] at h3
        rw [not_not.mp h3]
    exact ⟨not_not.mp h1, hbn, not_not.mp h4,
      not_not.mp h5, by rw [← h.1], h.2.symm⟩

/-- A receipt passing the positional and block checks but failing the gas-difference
check reports its index, actual gas used, and the expected difference.
Shared helper. -/
lemma checkReceipt_gas_error (block : BlockID) (txh : Hash) (i li cg : Nat)
    (r : Receipt)
    (h1 : r.transactionIndex = i) (h2 : r.blockNumber = some block.number)
    (h3 : r.blockHash = block.hash)
    (h4 : r.gasUsed ≠ sub64 r.cumulativeGasUsed cg) :
    checkReceipt block txh i li cg (some r) =
      .error (.badGasUsed i r.gasUsed (sub64 r.cumulativeGasUsed cg)) := by
  simp [checkReceipt, h1, h2, h3, h4]

/-- A receipt whose structural checks pass surfaces its log-check error.
Shared helper. -/
lemma checkReceipt_log_error (block : BlockID) (txh : Hash) (i li cg : Nat)
    (r : Receipt) (e : ValidationError)
    (h1 : r.transactionIndex = i) (h2 : r.blockNumber = some block.number)
    (h3 : r.blockHash = block.hash)
    (h4 : r.gasUsed = sub64 r.cumulativeGasUsed cg)
    (h5 : checkLogs block txh i r.logs 0 li = .error e) :
    checkReceipt block txh i li cg (some r) = .error e := by
  simp [checkReceipt, h1, h2, h3, h4, h5]

/-- Splitting the receipts loop at an append. Shared helper. -/
lemma checkReceiptsLoop_append (block : BlockID) (txs : List Hash)
    (xs ys : List (Option Receipt)) : ∀ (i li cg : Nat),
    checkReceiptsLoop block txs (xs ++ ys) i li cg =
      match checkReceiptsLoop block txs xs i li cg with
      | .error e => .error e
      | .ok (li', cg') => checkReceiptsLoop block txs ys (i + xs.length) li' cg' := by
  induction xs with
  | nil => intro i li cg; rfl
  | cons x rest ih =>
    intro i li cg
    simp only [List.cons_append, checkReceiptsLoop, List.length_cons]
    cases h : checkReceipt block (txs.getD i 0) i li cg x with
    | error e => rfl
    | ok q =>
      rcases q with ⟨li', cg'⟩
      have harith : i + (rest.length + 1) = i + 1 + rest.length := by omega
      rw [harith]
      exact ih (i + 1) li' cg'

/-- A successful receipts loop validates, at every position, that the receipt is
present, its gas used is the `uint64` difference of cumulative gas values, and all
its logs carry the requested transaction hash. Shared helper. -/
lemma checkReceiptsLoop_ok_inv (block : BlockID) (txs : List Hash) :
    ∀ (rs : List (Option Receipt)) (i li cg : Nat) (p : Nat × Nat),
    checkReceiptsLoop block txs rs i li cg = .ok p →
    ∀ j, j < rs.length → ∃ r, rs.get? j = some (some r) ∧
      r.gasUsed = sub64 r.cumulativeGasUsed (cumAt cg rs j) ∧
      ∀ l ∈ r.logs, l.txHash = txs.getD (i + j) 0 := by
  intro rs
  induction rs with
  | nil => intro i li cg p h j hj; simp at hj
  | cons or rest ih =>
    intro i li cg p h j hj
    simp only [checkReceiptsLoop] at h
    cases hcr : checkReceipt block (txs.getD i 0) i li cg or with
    | error e => rw [hcr] at h; simp at h
    | ok q =>
      rcases q with ⟨li2, cg2⟩
      rw [hcr] at h
      obtain ⟨r, hor, hti, hbn, hbh, hgas, hlogs, hcg2⟩ :=
        checkReceipt_ok_elim block (txs.getD i 0) i li cg or li2 cg2 hcr
      subst hor
      cases j with
      | zero =>
        refine ⟨r, rfl, hgas, ?_⟩
        intro l hl
        simpa using checkLogs_ok_txHash block (txs.getD i 0) i r.logs 0 li li2 hlogs l hl
      | succ j' =>
        have hj' : j' < rest.length := by simpa using hj
        obtain ⟨r', hget, hgas', hlog'⟩ := ih (i + 1) li2 cg2 p h j' hj'
        refine ⟨r', by simpa using hget, ?_, ?_⟩
        · have hcum : cumAt cg (some r :: rest) (j' + 1) = cumAt cg2 rest j' := by
            simp [cumAt, hcg2]
          rw [hcum]
          exact hgas'
        · intro l hl
          have := hlog' l hl
          rwa [show i + 1 + j' = i + (j' + 1) by omega] at this

/-- A successful `validateReceipts` implies the length guard held and the receipts
loop succeeded. Shared helper. -/
lemma validateReceipts_ok_elim (ds : List (Option Receipt) → Hash) (block : BlockID)
    (rh : Hash) (txs : List Hash) (rs : List (Option Receipt))
    (h : validateReceipts ds block rh txs rs = .ok ()) :
    rs.length = txs.length ∧ ∃ p, checkReceiptsLoop block txs rs 0 0 0 = .ok p := by
  simp only [validateReceipts] at h
  by_cases h1 : rs.length ≠ txs.length
  · rw [if_pos h1] at h; exact Except.noConfusion h
  rw [if_neg h1] at h
  by_cases h2 : txs.length = 0 ∧ rh ≠ EmptyRootHash
  · rw [if_pos h2] at h; exact Except.noConfusion h
  rw [if_neg h2] at h
  rcases hlp : checkReceiptsLoop block txs rs 0 0 0 with e | p <;> rw [hlp] at h
  · exact Except.noConfusion h
  · exact ⟨not_not.mp h1, p, rfl⟩

/-- A receipts-loop failure is surfaced unchanged by `validateReceipts` when the
length guard holds. Shared helper. -/
lemma validateReceipts_loop_error (ds : List (Option Receipt) → Hash) (block : BlockID)
    (rh : Hash) (txs : List Hash) (rs : List (Option Receipt)) (e : ValidationError)
    (hlen : rs.length = txs.length)
    (h : checkReceiptsLoop block txs rs 0 0 0 = .error e) :
    validateReceipts ds block rh txs rs = .error e := by
  have hne : ¬ (txs.length = 0 ∧ rh ≠ EmptyRootHash) := by
    rintro ⟨h0, -⟩
    have hrs : rs = [] := List.eq_nil_of_length_eq_zero (hlen.trans h0)
    rw [hrs] at h
    simp [checkReceiptsLoop] at h
  simp only [validateReceipts]
  rw [if_neg (by simp [hlen]), if_neg hne, h]

/-- C6: `validateReceipts` fails whenever the receipt count differs from the
transaction-hash count; and for `txHashes = []` (with `receipts` also empty), given
that the trie-hashing collaborator maps the empty receipt list to the canonical
empty-trie root, validation succeeds if and only if the expected receipts root
equals `EmptyRootHash` — any other root is a failure. -/
theorem validateReceipts_count_and_empty
    (ds : List (Option Receipt) → Hash) (block : BlockID) (receiptHash : Hash)
    (txHashes : List Hash) (receipts : List (Option Receipt))
    (hds : ds [] = EmptyRootHash) :
    (receipts.length ≠ txHashes.length →
      validateReceipts ds block receiptHash txHashes receipts =
        .error (.countMismatch receipts.length txHashes.length)) ∧
    (validateReceipts ds block receiptHash [] [] = .ok () ↔
      receiptHash = EmptyRootHash) := by
  refine ⟨?_, ?_, ?_⟩
  · intro hlen
    simp [validateReceipts, hlen]
  · intro hok
    by_contra hne
    simp [validateReceipts, hne] at hok
  · intro heq
    subst heq
    simp [validateReceipts, checkReceiptsLoop, hds]

/-- A trie-root stand-in for witnesses: the canonical empty root on the empty list. -/
def deriveShaW : List (Option Receipt) → Hash :=
  fun rs => if rs = [] then EmptyRootHash else 0

/-- Witness for C6: a one-receipt list against zero transaction hashes fails with
the two counts; the empty block passes exactly with the empty-trie root. -/
theorem validateReceipts_count_and_empty_witness :
    (deriveShaW [] = EmptyRootHash) ∧
    (([some ⟨0, 1, some 2, 0, 0, []⟩] : List (Option Receipt)).length ≠
      ([] : List Hash).length) ∧
    (validateReceipts deriveShaW ⟨1, 2⟩ 0 [] [some ⟨0, 1, some 2, 0, 0, []⟩] =
      .error (.countMismatch 1 0)) ∧
    (validateReceipts deriveShaW ⟨1, 2⟩ EmptyRootHash [] [] = .ok ()) :=
  ⟨rfl, by decide,
    (validateReceipts_count_and_empty deriveShaW ⟨1, 2⟩ 0 []
      [some ⟨0, 1, some 2, 0, 0, []⟩] rfl).1 (by decide),
    (validateReceipts_count_and_empty deriveShaW ⟨1, 2⟩ EmptyRootHash [] [] rfl).2.mpr
      rfl⟩

/-- C7: a successful validation forces every receipt's `gasUsed` to equal the
`uint64` difference between its `cumulativeGasUsed` and the previous receipt's
(0 before the first); and a receipt that passes the positional and block checks but
violates the gas difference (everything before it passing) makes `validateReceipts`
fail with an error carrying that receipt's index, its actual `gasUsed`, and the
expected difference. -/
theorem validateReceipts_gas_consistency
    (ds : List (Option Receipt) → Hash) (block : BlockID) (rh : Hash)
    (txs : List Hash) (rs : List (Option Receipt)) :
    (validateReceipts ds block rh txs rs = .ok () →
      ∀ j, j < rs.length → ∃ r, rs.get? j = some (some r) ∧
        r.gasUsed = sub64 r.cumulativeGasUsed (cumAt 0 rs j)) ∧
    (∀ (pre post : List (Option Receipt)) (r : Receipt) (li cg : Nat),
      rs = pre ++ some r :: post →
      rs.length = txs.length →
      checkReceiptsLoop block txs pre 0 0 0 = .ok (li, cg) →
      r.transactionIndex = pre.length →
      r.blockNumber = some block.number →
      r.blockHash = block.hash →
      r.gasUsed ≠ sub64 r.cumulativeGasUsed cg →
      validateReceipts ds block rh txs rs =
        .error (.badGasUsed pre.length r.gasUsed (sub64 r.cumulativeGasUsed cg))) := by
  constructor
  · intro hok j hj
    obtain ⟨hlen, p, hlp⟩ := validateReceipts_ok_elim ds block rh txs rs hok
    obtain ⟨r, hget, hgas, -⟩ := checkReceiptsLoop_ok_inv block txs rs 0 0 0 p hlp j hj
    exact ⟨r, hget, hgas⟩
  · intro pre post r li cg hsplit hlen hpre hti hbn hbh hgas
    subst hsplit
    have herr : checkReceiptsLoop block txs (pre ++ some r :: post) 0 0 0 =
        .error (.badGasUsed pre.length r.gasUsed (sub64 r.cumulativeGasUsed cg)) := by
      rw [checkReceiptsLoop_append block txs pre (some r :: post) 0 0 0, hpre]
      show checkReceiptsLoop block txs (some r :: post) (0 + pre.length) li cg = _
      simp only [checkReceiptsLoop, Nat.zero_add]
      rw [checkReceipt_gas_error block (txs.getD pre.length 0) pre.length li cg r
        hti hbn hbh hgas]
    exact validateReceipts_loop_error ds block rh txs _ _ hlen herr

/-- Witness for C7: a single receipt whose `gasUsed` (5) differs from its cumulative
gas difference (10) is rejected with its index and both numbers. -/
theorem validateReceipts_gas_consistency_witness :
    (([some ⟨0, 1, some 2, 10, 5, []⟩] : List (Option Receipt)) =
      [] ++ some ⟨0, 1, some 2, 10, 5, []⟩ :: []) ∧
    (([some ⟨0, 1, some 2, 10, 5, []⟩] : List (Option Receipt)).length =
      ([99] : List Hash).length) ∧
    (checkReceiptsLoop ⟨1, 2⟩ [99] [] 0 0 0 = .ok (0, 0)) ∧
    ((5 : Nat) ≠ sub64 10 0) ∧
    (validateReceipts deriveShaW ⟨1, 2⟩ 0 [99] [some ⟨0, 1, some 2, 10, 5, []⟩] =
      .error (.badGasUsed 0 5 (sub64 10 0))) :=
  ⟨rfl, rfl, rfl, by decide,
    (validateReceipts_gas_consistency deriveShaW ⟨1, 2⟩ 0 [99]
        [some ⟨0, 1, some 2, 10, 5, []⟩]).2
      [] [] ⟨0, 1, some 2, 10, 5, []⟩ 0 0 rfl rfl rfl rfl rfl rfl (by decide)⟩

/-- C10: beyond the spec's listed checks, a successful validation forces every log
of receipt `j` to carry the requested transaction hash `txHashes[j]`; and a log
differing from it (all positional, block, gas, and log-index checks passing) makes
`validateReceipts` fail with an error carrying the log index and both hashes. -/
theorem validateReceipts_log_txHash
    (ds : List (Option Receipt) → Hash) (block : BlockID) (rh : Hash)
    (txs : List Hash) (rs : List (Option Receipt)) :
    (validateReceipts ds block rh txs rs = .ok () →
      ∀ j, j < rs.length → ∃ r, rs.get? j = some (some r) ∧
        ∀ l ∈ r.logs, l.txHash = txs.getD j 0) ∧
    (∀ (pre post : List (Option Receipt)) (r : Receipt) (li cg : Nat)
        (lpre lpost : List Log) (l : Log) (li' : Nat),
      rs = pre ++ some r :: post →
      rs.length = txs.length →
      checkReceiptsLoop block txs pre 0 0 0 = .ok (li, cg) →
      r.transactionIndex = pre.length →
      r.blockNumber = some block.number →
      r.blockHash = block.hash →
      r.gasUsed = sub64 r.cumulativeGasUsed cg →
      r.logs = lpre ++ l :: lpost →
      checkLogs block (txs.getD pre.length 0) pre.length lpre 0 li = .ok li' →
      l.index = li' → l.txIndex = pre.length → l.blockHash = block.hash →
      l.blockNumber = block.number → l.txHash ≠ txs.getD pre.length 0 →
      validateReceipts ds block rh txs rs =
        .error (.badLogTxHash l.index (txs.getD pre.length 0) l.txHash)) := by
  constructor
  · intro hok j hj
    obtain ⟨hlen, p, hlp⟩ := validateReceipts_ok_elim ds block rh txs rs hok
    obtain ⟨r, hget, -, hlog⟩ := checkReceiptsLoop_ok_inv block txs rs 0 0 0 p hlp j hj
    refine ⟨r, hget, ?_⟩
    intro l hl
    simpa using hlog l hl
  · intro pre post r li cg lpre lpost l li' hsplit hlen hpre hti hbn hbh hgas hlsplit
      hlpre hli hlti hlbh hlbn hlth
    subst hsplit
    have hloge : checkLogs block (txs.getD pre.length 0) pre.length r.logs 0 li =
        .error (.badLogTxHash l.index (txs.getD pre.length 0) l.txHash) := by
      rw [hlsplit,
        checkLogs_append block (txs.getD pre.length 0) pre.length lpre (l :: lpost) 0 li,
        hlpre]
      show checkLogs block (txs.getD pre.length 0) pre.length (l :: lpost)
        (0 + lpre.length) li' = _
      exact checkLogs_txHash_error block (txs.getD pre.length 0) pre.length l lpost
        (0 + lpre.length) li' hli hlti hlbh hlbn hlth
    have herr : checkReceiptsLoop block txs (pre ++ some r :: post) 0 0 0 =
        .error (.badLogTxHash l.index (txs.getD pre.length 0) l.txHash) := by
      rw [checkReceiptsLoop_append block txs pre (some r :: post) 0 0 0, hpre]
      show checkReceiptsLoop block txs (some r :: post) (0 + pre.length) li cg = _
      simp only [checkReceiptsLoop, Nat.zero_add]
      rw [checkReceipt_log_error block (txs.getD pre.length 0) pre.length li cg r _
        hti hbn hbh hgas hloge]
    exact validateReceipts_loop_error ds block rh txs _ _ hlen herr

/-- Witness for C10: a receipt passing all structural checks whose only log carries
transaction hash 77 while the requested hash is 99 is rejected with the log index
and both hashes. -/
theorem validateReceipts_log_txHash_witness :
    (([some ⟨0, 1, some 2, 10, 10, [⟨0, 0, 1, 2, 77, false⟩]⟩] : List (Option Receipt)) =
      [] ++ some ⟨0, 1, some 2, 10, 10, [⟨0, 0, 1, 2, 77, false⟩]⟩ :: []) ∧
    ((10 : Nat) = sub64 10 0) ∧
    (([⟨0, 0, 1, 2, 77, false⟩] : List Log) = [] ++ ⟨0, 0, 1, 2, 77, false⟩ :: []) ∧
    ((77 : Nat) ≠ ([99] : List Hash).getD 0 0) ∧
    (validateReceipts deriveShaW ⟨1, 2⟩ 0 [99]
        [some ⟨0, 1, some 2, 10, 10, [⟨0, 0, 1, 2, 77, false⟩]⟩] =
      .error (.badLogTxHash 0 99 77)) :=
  ⟨rfl, by decide, rfl, by decide,
    (validateReceipts_log_txHash deriveShaW ⟨1, 2⟩ 0 [99]
        [some ⟨0, 1, some 2, 10, 10, [⟨0, 0, 1, 2, 77, false⟩]⟩]).2
      [] [] ⟨0, 1, some 2, 10, 10, [⟨0, 0, 1, 2, 77, false⟩]⟩ 0 0 [] []
      ⟨0, 0, 1, 2, 77, false⟩ 0 rfl rfl rfl rfl rfl rfl (by decide) rfl rfl rfl rfl
      rfl rfl (by decide)⟩

/-- C8: when the selected method is `DebugGetRawReceipts` and the RPC returns a
raw-receipts array whose length differs from the requested transaction count, the
fetch fails with an error carrying both counts and no receipts; and through the
caching wrapper, nothing is cached for that block (the cache map is unchanged). -/
theorem fetchReceipts_raw_count_mismatch
    (decode : BlockID → List RawReceipt → List Hash → Except Nat (List Receipt))
    (client : RPCClient) (f : RPCReceiptsFetcher) (now : Nat) (block : BlockID)
    (txHashes : List Hash) (f1 : RPCReceiptsFetcher) (raw : List RawReceipt)
    (hpick : f.PickReceiptsMethod now txHashes.length = (f1, DebugGetRawReceipts))
    (hraw : client.debugGetRawReceipts block.hash = .ok raw)
    (hlen : raw.length ≠ txHashes.length) :
    (RPCReceiptsFetcher.FetchReceipts decode client f now block txHashes).2 =
      .error (.countMismatch raw.length txHashes.length) ∧
    (∀ (cache : Hash → Option (List Receipt)), cache block.hash = none →
      CachingReceiptsProvider.FetchReceipts
        ⟨fun b t => (RPCReceiptsFetcher.FetchReceipts decode client f now b t).2, cache⟩
        block txHashes =
      (⟨fun b t => (RPCReceiptsFetcher.FetchReceipts decode client f now b t).2, cache⟩,
        .error (.countMismatch raw.length txHashes.length))) := by
  have hdisp : dispatchReceiptsMethod decode client block txHashes DebugGetRawReceipts =
      .error (.countMismatch raw.length txHashes.length) := by
    simp [dispatchReceiptsMethod, DebugGetRawReceipts, EthGetTransactionReceiptBatch,
      AlchemyGetTransactionReceipts, hraw, hlen]
  have h1 : (RPCReceiptsFetcher.FetchReceipts decode client f now block txHashes).2 =
      .error (.countMismatch raw.length txHashes.length) := by
    simp [RPCReceiptsFetcher.FetchReceipts, hpick, hdisp]
  refine ⟨h1, ?_⟩
  intro cache hnone
  simp [CachingReceiptsProvider.FetchReceipts, hnone, h1]

/-- An RPC client for the C8 witness: `debug_getRawReceipts` returns two raw
entries. -/
def clientRawW : RPCClient :=
  { ethGetTransactionReceiptBatch := fun _ => .ok []
    alchemyGetTransactionReceipts := fun _ => .ok []
    debugGetRawReceipts := fun _ => .ok [7, 8]
    parityGetBlockReceipts := fun _ => .ok []
    ethGetBlockReceipts := fun _ => .ok []
    erigonGetBlockReceiptsByBlockHash := fun _ => .ok [] }

/-- Witness for C8: a debug-geth fetcher gets 2 raw receipts for 3 requested
hashes; the fetch fails with both counts and the cache stays unchanged. -/
theorem fetchReceipts_raw_count_mismatch_witness :
    ((NewRPCReceiptsFetcher .debugGeth 10 0).PickReceiptsMethod 5
        ([11, 12, 13] : List Hash).length =
      (NewRPCReceiptsFetcher .debugGeth 10 0, DebugGetRawReceipts)) ∧
    (clientRawW.debugGetRawReceipts (1 : Nat) = .ok [7, 8]) ∧
    (([7, 8] : List RawReceipt).length ≠ ([11, 12, 13] : List Hash).length) ∧
    ((RPCReceiptsFetcher.FetchReceipts decodeW clientRawW
        (NewRPCReceiptsFetcher .debugGeth 10 0) 5 ⟨1, 1⟩ [11, 12, 13]).2 =
      .error (.countMismatch 2 3) ∧
    (∀ (cache : Hash → Option (List Receipt)), cache (1 : Nat) = none →
      CachingReceiptsProvider.FetchReceipts
        ⟨fun b t => (RPCReceiptsFetcher.FetchReceipts decodeW clientRawW
          (NewRPCReceiptsFetcher .debugGeth 10 0) 5 b t).2, cache⟩
        ⟨1, 1⟩ [11, 12, 13] =
      (⟨fun b t => (RPCReceiptsFetcher.FetchReceipts decodeW clientRawW
          (NewRPCReceiptsFetcher .debugGeth 10 0) 5 b t).2, cache⟩,
        .error (.countMismatch 2 3)))) :=
  ⟨by decide, rfl, by decide,
    fetchReceipts_raw_count_mismatch decodeW clientRawW
      (NewRPCReceiptsFetcher .debugGeth 10 0) 5 ⟨1, 1⟩ [11, 12, 13]
      (NewRPCReceiptsFetcher .debugGeth 10 0) [7, 8] (by decide) rfl (by decide)⟩

end Receipts
